import Mathlib

/-!
Verification of the `AugurAnalytics` browser analytics client
(`packages/core`): event batching and flush scheduling, delivery with
retry, offline persistence, and session management.

The embedding below translates the class `AugurAnalytics` into pure Lean
definitions.  Event payloads are abstracted to `Nat` identifiers (the
batching machinery never inspects a payload).  The mutable instance fields
`eventQueue`, `isSending` and `batchTimer`, together with the sequence of
batches handed to the delivery transport, form an explicit state record,
and the asynchronous callback interleaving of the host environment is
modelled as a trace of actions.
-/

namespace Augur

/-- An abstract queued event payload. -/
abbrev Event := Nat

/-- The configuration fields consulted by the batching machinery, after the
constructor has applied its defaults. -/
structure CoreCfg where
  batchSize : Nat
  batchTimeout : Nat
  deriving Repr, DecidableEq

/-- The mutable state of one `AugurAnalytics` instance relevant to
batching, plus the observable history of batches handed to the transport.

* `queue` is `this.eventQueue`;
* `sent` records, oldest first, each snapshot passed to `sendBatch`;
* `isSending` is `this.isSending`;
* `timer` is `this.batchTimer`, represented as the absolute time at which
  the pending `setTimeout` callback will fire (`none` when no timer is
  armed). -/
structure SdkState where
  queue : List Event
  sent : List (List Event)
  isSending : Bool
  timer : Option Nat
  deriving Repr, DecidableEq

/-- Freshly constructed instance: empty queue, nothing sent, no send in
flight, no timer. -/
def initState : SdkState :=
  { queue := [], sent := [], isSending := false, timer := none }

/-- `flushQueue()`: returns unchanged when the queue is empty or a send is
already in flight; otherwise clears the timer, snapshots the whole queue
as one batch handed to `sendBatch`, empties the queue and marks a send in
flight. -/
def flushQueue (s : SdkState) : SdkState :=
  if s.queue.length = 0 ∨ s.isSending = true then s
  else
    { queue := [], sent := s.sent ++ [s.queue], isSending := true, timer := none }

/-- `track(...)` at wall-clock time `t`: appends the payload to the queue;
if the queue has reached `batchSize` it calls `flushQueue()`, otherwise it
calls `resetBatchTimer()`, which clears any pending timer and arms a new
one `batchTimeout` ms from now. -/
def track (cfg : CoreCfg) (s : SdkState) (e : Event) (t : Nat) : SdkState :=
  let s1 : SdkState := { s with queue := s.queue ++ [e] }
  if cfg.batchSize ≤ s1.queue.length then flushQueue s1
  else { s1 with timer := some (t + cfg.batchTimeout) }

/-- Resolution of the promise returned by `sendBatch` inside
`flushQueue`: both the `.then` and the `.catch` handler reset
`isSending` to `false`. -/
def sendComplete (s : SdkState) : SdkState :=
  if s.isSending = true then { s with isSending := false } else s

/-- The `setTimeout` callback armed by `resetBatchTimer` firing at time
`t`: it runs only if that timer is still the pending one, and it calls
`flushQueue()`. -/
def timerFire (s : SdkState) (t : Nat) : SdkState :=
  if s.timer = some t then flushQueue { s with timer := none } else s

/-- One occurrence in the host environment's callback loop:
a `track` call, an explicit `flushQueue()` call (also issued by the
`pagehide` / `visibilitychange` handlers), a batch-timer expiry, or the
completion of the in-flight `sendBatch` promise. -/
inductive Action where
  | track (e : Event) (t : Nat)
  | flushCall
  | timerFire (t : Nat)
  | sendComplete
  deriving Repr, DecidableEq

/-- Interpret one action on the instance state. -/
def stepA (cfg : CoreCfg) (s : SdkState) : Action → SdkState
  | .track e t => track cfg s e t
  | .flushCall => flushQueue s
  | .timerFire t => timerFire s t
  | .sendComplete => sendComplete s

/-- Run a trace of actions from a given state. -/
def runFrom (cfg : CoreCfg) (s : SdkState) (tr : List Action) : SdkState :=
  tr.foldl (stepA cfg) s

/-- Run a trace of actions on a freshly constructed instance. -/
def runTrace (cfg : CoreCfg) (tr : List Action) : SdkState :=
  runFrom cfg initState tr

/-- The events enqueued by a trace, in call order. -/
def trackedOf (tr : List Action) : List Event :=
  tr.filterMap fun a =>
    match a with
    | .track e _ => some e
    | _ => none

/-- `true` when the action is not a `track` call issued while a send is
in flight. -/
def calmA (s : SdkState) : Action → Bool
  | .track _ _ => !s.isSending
  | _ => true

/-- `true` when every `track` action of the trace executes while no send
is in flight (so no size-triggered flush is ever dropped by the
`isSending` guard). -/
def calmB (cfg : CoreCfg) : SdkState → List Action → Bool
  | _, [] => true
  | s, a :: rest => calmA s a && calmB cfg (stepA cfg s a) rest

/-! ### Partition invariant for the batching pipeline -/

theorem flushQueue_sent_queue (s : SdkState) :
    (flushQueue s).sent.flatten ++ (flushQueue s).queue = s.sent.flatten ++ s.queue := by
  unfold flushQueue
  split
  · rfl
  · simp

theorem stepA_sent_queue (cfg : CoreCfg) (s : SdkState) (a : Action) :
    (stepA cfg s a).sent.flatten ++ (stepA cfg s a).queue =
      s.sent.flatten ++ s.queue ++
        (match a with
         | .track e _ => [e]
         | _ => []) := by
  cases a with
  | track e t =>
    simp only [stepA, track]
    split
    · rw [flushQueue_sent_queue]; simp
    · simp
  | flushCall =>
    simp only [stepA]
    rw [flushQueue_sent_queue]; simp
  | timerFire t =>
    simp only [stepA, timerFire]
    split
    · rw [flushQueue_sent_queue]; simp
    · simp
  | sendComplete =>
    simp only [stepA, sendComplete]
    split <;> simp

theorem runFrom_sent_queue (cfg : CoreCfg) (tr : List Action) (s : SdkState) :
    (runFrom cfg s tr).sent.flatten ++ (runFrom cfg s tr).queue =
      s.sent.flatten ++ s.queue ++ trackedOf tr := by
  induction tr generalizing s with
  | nil => simp [runFrom, trackedOf]
  | cons a rest ih =>
    show (runFrom cfg (stepA cfg s a) rest).sent.flatten ++
        (runFrom cfg (stepA cfg s a) rest).queue = _
    rw [ih, stepA_sent_queue]
    cases a <;> simp [trackedOf, List.filterMap]

theorem flushQueue_executes (s : SdkState) (hq : s.queue ≠ []) (hs : s.isSending = false) :
    flushQueue s =
      { queue := [], sent := s.sent ++ [s.queue], isSending := true, timer := none } := by
  unfold flushQueue
  rw [if_neg]
  simp [hs, List.length_eq_zero, hq]

theorem stepA_bound (cfg : CoreCfg) (hbs : 1 ≤ cfg.batchSize) (s : SdkState) (a : Action)
    (hq : s.queue.length < cfg.batchSize)
    (hs : ∀ b ∈ s.sent, b.length ≤ cfg.batchSize)
    (hcalm : ∀ e t, a = .track e t → s.isSending = false) :
    (stepA cfg s a).queue.length < cfg.batchSize ∧
      ∀ b ∈ (stepA cfg s a).sent, b.length ≤ cfg.batchSize := by
  have hflush : ∀ s' : SdkState, s'.queue.length ≤ cfg.batchSize →
      (∀ b ∈ s'.sent, b.length ≤ cfg.batchSize) →
      (flushQueue s').queue.length < cfg.batchSize ∨ flushQueue s' = s' := by
    intro s' hq' hs'
    unfold flushQueue
    split
    · exact Or.inr rfl
    · left; simpa using hbs
  have hflushSent : ∀ s' : SdkState, s'.queue.length ≤ cfg.batchSize →
      (∀ b ∈ s'.sent, b.length ≤ cfg.batchSize) →
      ∀ b ∈ (flushQueue s').sent, b.length ≤ cfg.batchSize := by
    intro s' hq' hs' b hb
    unfold flushQueue at hb
    split at hb
    · exact hs' b hb
    · simp only [List.mem_append, List.mem_singleton] at hb
      rcases hb with hb | hb
      · exact hs' b hb
      · subst hb; exact hq'
  cases a with
  | track e t =>
    have hsend : s.isSending = false := hcalm e t rfl
    simp only [stepA, track]
    by_cases hth : cfg.batchSize ≤ (s.queue ++ [e]).length
    · rw [if_pos hth]
      rw [flushQueue_executes { s with queue := s.queue ++ [e] } (by simp) (by simpa using hsend)]
      refine ⟨by simpa using hbs, ?_⟩
      intro b hb
      simp only [List.mem_append, List.mem_singleton] at hb
      rcases hb with hb | hb
      · exact hs b hb
      · subst hb
        simpa using hq
    · rw [if_neg hth]
      refine ⟨by simpa using Nat.lt_of_not_le hth, ?_⟩
      simpa using hs
  | flushCall =>
    simp only [stepA]
    rcases hflush s hq.le hs with h | h
    · exact ⟨h, hflushSent s hq.le hs⟩
    · rw [h]; exact ⟨hq, hs⟩
  | timerFire t =>
    simp only [stepA, timerFire]
    split
    · rcases hflush { s with timer := none } hq.le hs with h | h
      · exact ⟨h, hflushSent { s with timer := none } hq.le hs⟩
      · rw [h]; exact ⟨hq, hs⟩
    · exact ⟨hq, hs⟩
  | sendComplete =>
    simp only [stepA, sendComplete]
    split <;> exact ⟨hq, hs⟩

theorem calm_run_bound (cfg : CoreCfg) (hbs : 1 ≤ cfg.batchSize) :
    ∀ (tr : List Action) (s : SdkState),
      calmB cfg s tr = true →
      s.queue.length < cfg.batchSize →
      (∀ b ∈ s.sent, b.length ≤ cfg.batchSize) →
      (runFrom cfg s tr).queue.length < cfg.batchSize ∧
        ∀ b ∈ (runFrom cfg s tr).sent, b.length ≤ cfg.batchSize := by
  intro tr
  induction tr with
  | nil => exact fun s _ hq hs => ⟨hq, hs⟩
  | cons a rest ih =>
    intro s hc hq hs
    rw [calmB, Bool.and_eq_true] at hc
    have hcalm : ∀ e t, a = .track e t → s.isSending = false := by
      intro e t ha
      subst ha
      simpa [calmA] using hc.1
    have hstep := stepA_bound cfg hbs s a hq hs hcalm
    exact ih (stepA cfg s a) hc.2 hstep.1 hstep.2

/-- **C1** (amended).  For every trace of `track` calls interleaved with
flush triggers and send completions: the batches handed to `sendBatch`,
concatenated in order and followed by the still-queued events, are exactly
the enqueue sequence — so every event belongs to exactly one batch (or is
still queued), batches are contiguous, order-preserving slices, and no
event is reordered, duplicated, split or merged.  The size bound
`≤ batchSize` holds under the additional hypothesis that every `track`
call executes while no send is in flight; without it a size-triggered
flush is silently dropped by the `isSending` guard and a later batch can
exceed `batchSize` (see the counterexample). -/
theorem c1_batch_partition (cfg : CoreCfg) (tr : List Action) :
    (runTrace cfg tr).sent.flatten ++ (runTrace cfg tr).queue = trackedOf tr
    ∧ (1 ≤ cfg.batchSize → calmB cfg initState tr = true →
        ∀ b ∈ (runTrace cfg tr).sent, b.length ≤ cfg.batchSize) := by
  constructor
  · have h := runFrom_sent_queue cfg tr initState
    simpa [runTrace, initState] using h
  · intro hbs hc
    exact (calm_run_bound cfg hbs tr initState hc
      (by simpa [initState] using hbs) (by simp [initState])).2

/-- Witness for C1: with `batchSize = 2`, two `track` calls produce one
batch `[1, 2]`; the partition invariant and the size bound hold. -/
theorem c1_batch_partition_witness :
    (runTrace { batchSize := 2, batchTimeout := 5000 }
        [.track 1 0, .track 2 0, .sendComplete]).sent.flatten ++
      (runTrace { batchSize := 2, batchTimeout := 5000 }
        [.track 1 0, .track 2 0, .sendComplete]).queue =
      trackedOf [.track 1 0, .track 2 0, .sendComplete]
    ∧ ∀ b ∈ (runTrace { batchSize := 2, batchTimeout := 5000 }
        [.track 1 0, .track 2 0, .sendComplete]).sent, b.length ≤ 2 :=
  ⟨(c1_batch_partition { batchSize := 2, batchTimeout := 5000 }
      [.track 1 0, .track 2 0, .sendComplete]).1,
   (c1_batch_partition { batchSize := 2, batchTimeout := 5000 }
      [.track 1 0, .track 2 0, .sendComplete]).2 (by decide) (by decide)⟩

/-- **C1** counterexample.  The claim "each batch has size at most
`batchSize`" is false: with `batchSize = 2`, events 3, 4, 5 are enqueued
while the batch `[1, 2]` is in flight, the size-triggered flushes are
dropped by the `isSending` guard, and after the send completes the next
`track` flushes a batch of four events. -/
theorem c1_batchsize_counterexample :
    (runTrace { batchSize := 2, batchTimeout := 5000 }
        [.track 1 0, .track 2 0, .track 3 0, .track 4 0, .track 5 0,
         .sendComplete, .track 6 0]).sent = [[1, 2], [3, 4, 5, 6]]
    ∧ ∃ b ∈ (runTrace { batchSize := 2, batchTimeout := 5000 }
        [.track 1 0, .track 2 0, .track 3 0, .track 4 0, .track 5 0,
         .sendComplete, .track 6 0]).sent, 2 < b.length := by
  decide

/-- **C2** counterexample.  The claim says the timeout flush fires
`batchTimeout` ms after the *first* unflushed enqueue and is not restarted
by later enqueues.  With `batchSize = 10`, `batchTimeout = 5000`, a
`track` at time 0 followed by a `track` at time 1000 leaves the timer
armed for time 6000, not 5000: firing at the claimed deadline 5000 sends
nothing, while firing at 6000 flushes the batch.  `resetBatchTimer` is
called on every sub-threshold `track`, clearing and re-arming the timer. -/
theorem c2_timer_counterexample :
    (runTrace ⟨10, 5000⟩ [.track 1 0, .track 2 1000]).timer = some 6000
    ∧ (runTrace ⟨10, 5000⟩ [.track 1 0, .track 2 1000]).timer ≠ some 5000
    ∧ (timerFire (runTrace ⟨10, 5000⟩ [.track 1 0, .track 2 1000]) 5000).sent = []
    ∧ (timerFire (runTrace ⟨10, 5000⟩ [.track 1 0, .track 2 1000]) 6000).sent = [[1, 2]] := by
  decide

/-- **C2** (amended).  A `track` call at time `t` that leaves the queue
below `batchSize` arms the batch timer for `t + batchTimeout`,
overwriting any previously armed timer — the timeout flush therefore
occurs `batchTimeout` ms after the *most recent* sub-threshold enqueue,
not the first; and any flush that actually executes clears the timer. -/
theorem c2_timer_amended (cfg : CoreCfg) (s : SdkState) (e : Event) (t : Nat)
    (h : s.queue.length + 1 < cfg.batchSize) :
    (track cfg s e t).timer = some (t + cfg.batchTimeout)
    ∧ (track cfg s e t).queue = s.queue ++ [e]
    ∧ (∀ s' : SdkState, s'.queue ≠ [] → s'.isSending = false → (flushQueue s').timer = none) := by
  have hth : ¬ cfg.batchSize ≤ (s.queue ++ [e]).length := by
    simp only [List.length_append, List.length_cons, List.length_nil]
    omega
  have h1 : track cfg s e t =
      { queue := s.queue ++ [e], sent := s.sent, isSending := s.isSending,
        timer := some (t + cfg.batchTimeout) } := by
    simp only [track]
    rw [if_neg hth]
  refine ⟨by rw [h1], by rw [h1], ?_⟩
  intro s' hq' hs'
  rw [flushQueue_executes s' hq' hs']

/-- Witness for C2 (amended): one `track` at time 0 with an empty queue
and `batchTimeout = 5000` arms the timer for time 5000. -/
theorem c2_timer_amended_witness :
    (track ⟨10, 5000⟩ initState 1 0).timer = some (0 + 5000) :=
  (c2_timer_amended ⟨10, 5000⟩ initState 1 0 (by decide)).1

/-- **C8** (confirmed).  `flushQueue()` on an empty queue, or while a send
is in flight, returns the state entirely unchanged: no batch is handed to
the transport, no event is duplicated, and the queue is untouched. -/
theorem c8_flush_noop (s : SdkState) (h : s.queue = [] ∨ s.isSending = true) :
    flushQueue s = s := by
  unfold flushQueue
  rw [if_pos]
  rcases h with h | h
  · exact Or.inl (by simp [h])
  · exact Or.inr h

/-- Witness for C8: a no-op on an empty queue and a no-op while a send is
in flight, at concrete states. -/
theorem c8_flush_noop_witness :
    flushQueue initState = initState
    ∧ flushQueue { queue := [1], sent := [[0]], isSending := true, timer := none } =
        { queue := [1], sent := [[0]], isSending := true, timer := none } :=
  ⟨c8_flush_noop initState (Or.inl rfl),
   c8_flush_noop { queue := [1], sent := [[0]], isSending := true, timer := none } (Or.inr rfl)⟩

/-- **C10** counterexample.  The claim says events that reach `batchSize`
while a send is in flight stay queued until a *later `track` call,
explicit `flushQueue` call, or page-hide* after the send completes.
Concretely (`batchSize = 2`): events 2, 3 are enqueued during the flight
of batch `[0, 1]` and their threshold flush is dropped — but the batch
timer armed by the sub-threshold `track` of event 2 (at time 100, for
time 5100) survives the dropped flush, and once the send completes its
expiry alone transmits `[2, 3]`, with no further track, explicit flush or
page-hide in the trace. -/
theorem c10_pending_timer_counterexample :
    (runTrace ⟨2, 5000⟩ [.track 0 0, .track 1 0, .track 2 100, .track 3 200]).queue = [2, 3]
    ∧ (runTrace ⟨2, 5000⟩ [.track 0 0, .track 1 0, .track 2 100, .track 3 200]).isSending = true
    ∧ (runTrace ⟨2, 5000⟩ [.track 0 0, .track 1 0, .track 2 100, .track 3 200]).timer = some 5100
    ∧ (runTrace ⟨2, 5000⟩ [.track 0 0, .track 1 0, .track 2 100, .track 3 200]).sent = [[0, 1]]
    ∧ (runTrace ⟨2, 5000⟩ [.track 0 0, .track 1 0, .track 2 100, .track 3 200,
        .sendComplete, .timerFire 5100]).sent = [[0, 1], [2, 3]] := by
  decide

/-- **C10** (amended).  A `track` call that brings the queue to
`batchSize` while a send is in flight only appends the event: the
triggered flush is dropped and no new batch timer is armed (the pending
timer, if any, is left exactly as it was).  But if a batch timer armed by
an earlier sub-threshold enqueue is still pending, then after the
in-flight send completes that timer's expiry alone flushes the queued
events — no later track call, explicit flush or page-hide is needed. -/
theorem c10_dropped_flush_amended (cfg : CoreCfg) (s : SdkState) (e : Event) (t : Nat)
    (hin : s.isSending = true) (hth : cfg.batchSize ≤ s.queue.length + 1) :
    track cfg s e t = { s with queue := s.queue ++ [e] }
    ∧ (∀ td, s.timer = some td →
        (timerFire (sendComplete (track cfg s e t)) td).sent = s.sent ++ [s.queue ++ [e]]) := by
  have h1 : track cfg s e t = { s with queue := s.queue ++ [e] } := by
    simp only [track]
    rw [if_pos (by simpa using hth)]
    unfold flushQueue
    rw [if_pos (Or.inr (by simpa using hin))]
  refine ⟨h1, ?_⟩
  intro td htd
  rw [h1]
  have h2 : sendComplete { s with queue := s.queue ++ [e] } =
      { queue := s.queue ++ [e], sent := s.sent, isSending := false, timer := s.timer } := by
    simp [sendComplete, hin]
  rw [h2]
  unfold timerFire
  rw [if_pos (by simpa using htd)]
  rw [flushQueue_executes _ (by simp) rfl]

/-- Witness for C10 (amended): concrete state with batch `[0, 1]` in
flight, queue `[2]`, timer armed for 5100; tracking event 3 at time 200
drops the flush, and the timer expiry after completion sends `[2, 3]`. -/
theorem c10_dropped_flush_amended_witness :
    track ⟨2, 5000⟩ { queue := [2], sent := [[0, 1]], isSending := true, timer := some 5100 } 3 200
      = { queue := [2, 3], sent := [[0, 1]], isSending := true, timer := some 5100 }
    ∧ (timerFire (sendComplete (track ⟨2, 5000⟩
        { queue := [2], sent := [[0, 1]], isSending := true, timer := some 5100 } 3 200)) 5100).sent
      = [[0, 1], [2, 3]] := by
  have h := c10_dropped_flush_amended ⟨2, 5000⟩
    { queue := [2], sent := [[0, 1]], isSending := true, timer := some 5100 } 3 200 rfl (by decide)
  exact ⟨by rw [h.1]; rfl, by rw [h.2 5100 rfl]; rfl⟩

/-! ### Delivery transport: `sendBatch` with retry -/

/-- The environment a delivery attempt runs against.  `beaconSupported`
models the presence of `navigator.sendBeacon`; `beaconOk k` the boolean
returned by `sendBeacon` on the attempt with `retryCount = k`;
`fetchStatus k` the outcome of the `fetch` fallback on that attempt
(`none` = network error / rejected promise, `some st` = HTTP status). -/
structure SendEnv where
  beaconSupported : Bool
  beaconOk : Nat → Bool
  fetchStatus : Nat → Option Nat

/-- The fetch channel's verdict on attempt `k`: `response.ok` is an HTTP
status in 200–299; a network error or a non-2xx status throws. -/
def fetchOk (env : SendEnv) (k : Nat) : Bool :=
  match env.fetchStatus k with
  | none => false
  | some st => 200 ≤ st && st ≤ 299

/-- One try-block of `sendBatch` at `retryCount = k`: the beacon channel
is tried first when available; if `sendBeacon` returns `false` the same
attempt falls through to the fetch channel. -/
def attemptOk (env : SendEnv) (k : Nat) : Bool :=
  if env.beaconSupported && env.beaconOk k then true else fetchOk env k

/-- Observable outcome of a whole `sendBatch` call: whether it resolved
or finally threw, how many delivery attempts ran, and the backoff delay
(in ms) awaited before each retry, in order. -/
structure SendResult where
  ok : Bool
  attempts : Nat
  delays : List Nat
  deriving Repr, DecidableEq

/-- The recursion of `sendBatch(events, retryCount)`.  `gas` is
`maxRetries - retryCount`, so the source guard `retryCount < maxRetries`
is exactly `gas > 0`; on a failed attempt the code awaits
`1000 * (retryCount + 1)` ms and recurses with `retryCount + 1`. -/
def sendBatchGo (env : SendEnv) (retryCount : Nat) : Nat → SendResult
  | 0 => { ok := attemptOk env retryCount, attempts := 1, delays := [] }
  | gas + 1 =>
    if attemptOk env retryCount then { ok := true, attempts := 1, delays := [] }
    else
      let r := sendBatchGo env (retryCount + 1) gas
      { ok := r.ok, attempts := r.attempts + 1, delays := 1000 * (retryCount + 1) :: r.delays }

/-- `sendBatch(events)` (entry call has `retryCount = 0`). -/
def sendBatch (env : SendEnv) (maxRetries : Nat) : SendResult :=
  sendBatchGo env 0 maxRetries

theorem sendBatchGo_attempts_pos (env : SendEnv) (rc : Nat) :
    ∀ gas, 1 ≤ (sendBatchGo env rc gas).attempts := by
  intro gas
  cases gas with
  | zero => simp [sendBatchGo]
  | succ g =>
    rw [sendBatchGo]
    split
    · simp
    · simp

theorem sendBatchGo_attempts_le (env : SendEnv) :
    ∀ gas rc, (sendBatchGo env rc gas).attempts ≤ gas + 1 := by
  intro gas
  induction gas with
  | zero => intro rc; simp [sendBatchGo]
  | succ g ih =>
    intro rc
    rw [sendBatchGo]
    split
    · simp
    · simpa using ih (rc + 1)

theorem sendBatchGo_delays (env : SendEnv) :
    ∀ gas rc, (sendBatchGo env rc gas).delays =
      (List.range ((sendBatchGo env rc gas).attempts - 1)).map
        (fun n => 1000 * (rc + n + 1)) := by
  intro gas
  induction gas with
  | zero => intro rc; simp [sendBatchGo]
  | succ g ih =>
    intro rc
    rw [sendBatchGo]
    split
    · simp
    · have hpos := sendBatchGo_attempts_pos env (rc + 1) g
      simp only []
      rw [ih (rc + 1)]
      obtain ⟨m, hm⟩ : ∃ m, (sendBatchGo env (rc + 1) g).attempts = m + 1 :=
        ⟨(sendBatchGo env (rc + 1) g).attempts - 1, by omega⟩
      rw [hm]
      simp only [Nat.add_sub_cancel]
      rw [List.range_succ_eq_map]
      simp only [List.map_cons, List.map_map]
      congr 1
      apply List.map_congr_left
      intro n _
      simp only [Function.comp, Nat.succ_eq_add_one]
      ring

/-- **C3** (confirmed).  `sendBatch` makes at most `maxRetries + 1`
attempts in total; writing `a` for the number of attempts actually made,
the delay awaited between attempt `n` and attempt `n + 1` is exactly
`1000 * n` ms (so `1000, 2000, 3000` for the default `maxRetries = 3`),
the retries being the sequential recursion of `sendBatchGo`; on any
single attempt, a rejected beacon submission falls through to the fetch
channel within that same attempt, and a non-2xx fetch status makes the
attempt fail. -/
theorem c3_retry_policy (env : SendEnv) (maxRetries : Nat) :
    (sendBatch env maxRetries).attempts ≤ maxRetries + 1
    ∧ (sendBatch env maxRetries).delays =
        (List.range ((sendBatch env maxRetries).attempts - 1)).map (fun n => 1000 * (n + 1))
    ∧ (∀ k, env.beaconSupported = true → env.beaconOk k = false →
        attemptOk env k = fetchOk env k)
    ∧ (∀ k st, env.fetchStatus k = some st → 299 < st → fetchOk env k = false) := by
  refine ⟨sendBatchGo_attempts_le env maxRetries 0, ?_, ?_, ?_⟩
  · have h := sendBatchGo_delays env maxRetries 0
    simpa [sendBatch] using h
  · intro k hb hbo
    simp [attemptOk, hb, hbo]
  · intro k st hst hlt
    simp only [fetchOk, hst]
    simp
    omega

/-- An environment where every attempt fails: the beacon submission is
rejected and the fetch fallback always returns HTTP 500. -/
def envAllFail : SendEnv :=
  { beaconSupported := true, beaconOk := fun _ => false, fetchStatus := fun _ => some 500 }

/-- Witness for C3 at `maxRetries = 3` in the all-failing environment:
at most 4 attempts, backoff list as specified, beacon falls through to
fetch, HTTP 500 fails the attempt. -/
theorem c3_retry_policy_witness :
    (sendBatch envAllFail 3).attempts ≤ 4
    ∧ (sendBatch envAllFail 3).delays =
        (List.range ((sendBatch envAllFail 3).attempts - 1)).map (fun n => 1000 * (n + 1))
    ∧ attemptOk envAllFail 0 = fetchOk envAllFail 0
    ∧ fetchOk envAllFail 0 = false :=
  ⟨(c3_retry_policy envAllFail 3).1,
   (c3_retry_policy envAllFail 3).2.1,
   (c3_retry_policy envAllFail 3).2.2.1 0 rfl rfl,
   (c3_retry_policy envAllFail 3).2.2.2 0 500 rfl (by decide)⟩

/-! ### Constructor defaulting -/

/-- The JavaScript defaulting idiom `config.field || d` for a numeric
field: `undefined` (modelled `none`) and the falsy value `0` both yield
the default. -/
def orDefault (v : Option Nat) (d : Nat) : Nat :=
  match v with
  | none => d
  | some n => if n = 0 then d else n

/-- The user-supplied configuration object (fields that may be absent are
`Option`). -/
structure AugurConfig where
  batchSize : Option Nat := none
  batchTimeout : Option Nat := none
  maxRetries : Option Nat := none
  sessionTimeout : Option Nat := none
  enableLocalStorage : Option Bool := none

/-- The instance fields after constructor defaulting. -/
structure ResolvedCfg where
  batchSize : Nat
  batchTimeout : Nat
  maxRetries : Nat
  sessionTimeout : Nat
  enableLocalStorage : Bool
  deriving Repr, DecidableEq

/-- The defaulting performed by the constructor:
`batchSize = config.batchSize || 10`, `batchTimeout = config.batchTimeout
|| 5000`, `maxRetries = config.maxRetries || 3`, `sessionTimeout =
config.sessionTimeout || 30 * 60 * 1000`, and `enableLocalStorage =
config.enableLocalStorage !== false`. -/
def resolveConfig (c : AugurConfig) : ResolvedCfg :=
  { batchSize := orDefault c.batchSize 10
    batchTimeout := orDefault c.batchTimeout 5000
    maxRetries := orDefault c.maxRetries 3
    sessionTimeout := orDefault c.sessionTimeout (30 * 60 * 1000)
    enableLocalStorage := c.enableLocalStorage ≠ some false }

/-- **C9** (confirmed).  Because defaulting uses `||`, a configured zero
for `batchSize`, `batchTimeout` or `maxRetries` is replaced by the
default (10, 5000, 3); in particular an instance configured with
`maxRetries = 0` still retries 3 times — in an environment where every
attempt fails, `sendBatch` makes 4 attempts in total, not 1. -/
theorem c9_zero_config_defaults :
    (resolveConfig { batchSize := some 0, batchTimeout := some 0, maxRetries := some 0 }).batchSize = 10
    ∧ (resolveConfig { batchSize := some 0, batchTimeout := some 0, maxRetries := some 0 }).batchTimeout = 5000
    ∧ (resolveConfig { batchSize := some 0, batchTimeout := some 0, maxRetries := some 0 }).maxRetries = 3
    ∧ (sendBatch envAllFail
        (resolveConfig { batchSize := some 0, batchTimeout := some 0, maxRetries := some 0 }).maxRetries).attempts = 4
    ∧ (sendBatch envAllFail
        (resolveConfig { batchSize := some 0, batchTimeout := some 0, maxRetries := some 0 }).maxRetries).ok = false := by
  refine ⟨rfl, rfl, rfl, ?_, ?_⟩ <;> rfl

/-! ### Offline persistence: the `localStorage` model

`localStorage` is modelled as an association list of key/value entries in
enumeration order (`Object.keys` order); values are the JSON-decoded
event arrays. -/

abbrev Storage := List (String × List Event)

/-- `localStorage.getItem(key)` (decoded). -/
def getItem (store : Storage) (key : String) : Option (List Event) :=
  (store.find? fun kv => kv.1 == key).map (·.2)

/-- `localStorage.setItem(key, v)`: overwrite in place when the key
exists, otherwise add the entry at the end of the enumeration order. -/
def setItem (store : Storage) (key : String) (v : List Event) : Storage :=
  if store.any (fun kv => kv.1 == key) then
    store.map fun kv => if kv.1 == key then (key, v) else kv
  else store ++ [(key, v)]

/-- The session-keyed failure-record key `` `augur_events_${sessionId}` ``. -/
def eventsKey (sessionId : String) : String := "augur_events_" ++ sessionId

/-- Models `key.startsWith("augur_events_")` (character-wise). -/
def hasEventsKeyMark (key : String) : Bool :=
  "augur_events_".toList.isPrefixOf key.toList

/-- `persistEvents(events)`: reads the current session's record, appends
the failed batch's events, truncates the combination to the most recent
100 events (`combined.slice(-100)`, oldest dropped first) and writes the
result back. -/
def persistEvents (store : Storage) (sessionId : String) (events : List Event) : Storage :=
  let key := eventsKey sessionId
  let existingEvents := (getItem store key).getD []
  let combined := existingEvents ++ events
  let limited := combined.drop (combined.length - 100)
  setItem store key limited

/-- `sendPersistedEvents()`: a no-op when persistence is disabled;
otherwise every stored record whose key starts with `augur_events_` —
regardless of which session wrote it — and whose decoded array is
non-empty is re-submitted through `sendBatch`; the record is removed when
that re-send resolves and left in place when it rejects.  `sendOk key`
abstracts whether the re-send of the record at `key` succeeds. -/
def sendPersistedEvents (enableLocalStorage : Bool) (store : Storage)
    (sendOk : String → Bool) : Storage :=
  if enableLocalStorage = false then store
  else store.filter fun kv => !(hasEventsKeyMark kv.1 && !kv.2.isEmpty && sendOk kv.1)

theorem getItem_cons (kv : String × List Event) (l : Storage) (key : String) :
    getItem (kv :: l) key = if kv.1 == key then some kv.2 else getItem l key := by
  by_cases h : kv.1 == key
  · simp [getItem, List.find?_cons_of_pos, h]
  · simp [getItem, List.find?_cons_of_neg, h]

theorem getItem_setItem (store : Storage) (key : String) (v : List Event) :
    getItem (setItem store key v) key = some v := by
  induction store with
  | nil => simp [setItem, getItem]
  | cons kv rest ih =>
    unfold setItem at ih ⊢
    by_cases hk : kv.1 == key
    · rw [if_pos (by simp [hk])]
      simp only [List.map_cons, if_pos hk]
      rw [getItem_cons]
      simp
    · rw [List.any_cons]
      by_cases ha : rest.any (fun kv => kv.1 == key)
      · rw [if_pos (by simp [ha])]
        rw [if_pos ha] at ih
        simp only [List.map_cons, if_neg hk]
        rw [getItem_cons, if_neg hk]
        exact ih
      · rw [if_neg (by simp [hk, ha])]
        rw [if_neg ha] at ih
        rw [List.cons_append, getItem_cons, if_neg hk]
        exact ih

theorem setItem_entries (store : Storage) (key : String) (v : List Event) :
    ∀ kv ∈ setItem store key v, kv.1 = key → kv = (key, v) := by
  intro kv hmem hkey
  unfold setItem at hmem
  split at hmem
  · simp only [List.mem_map] at hmem
    obtain ⟨kv0, _, heq⟩ := hmem
    by_cases h0 : kv0.1 == key
    · rw [if_pos h0] at heq
      exact heq.symm
    · rw [if_neg h0] at heq
      subst heq
      exact absurd hkey (by simpa using h0)
  · rename_i hany
    rw [List.mem_append] at hmem
    rcases hmem with hmem | hmem
    · exact absurd (List.any_eq_true.mpr ⟨kv, hmem, by simp [hkey]⟩) hany
    · simpa using hmem

theorem getItem_filter_none (store : Storage) (p : String × List Event → Bool) (key : String)
    (h : ∀ kv ∈ store, kv.1 = key → p kv = false) :
    getItem (store.filter p) key = none := by
  induction store with
  | nil => simp [getItem]
  | cons kv rest ih =>
    rw [List.filter_cons]
    have hrest := ih fun kv' hm hk => h kv' (List.mem_cons_of_mem kv hm) hk
    by_cases hp : p kv = true
    · have hkey : kv.1 ≠ key := fun hkeq =>
        absurd (h kv (List.mem_cons_self kv rest) hkeq) (by simp [hp])
      rw [if_pos hp, getItem_cons, if_neg (by simpa using hkey)]
      exact hrest
    · rw [if_neg hp]
      exact hrest

theorem hasEventsKeyMark_eventsKey (sid : String) :
    hasEventsKeyMark (eventsKey sid) = true := by
  unfold hasEventsKeyMark eventsKey
  have hl : ("augur_events_" ++ sid).toList = "augur_events_".toList ++ sid.toList := by
    simp [String.toList]
  rw [hl, List.isPrefixOf_iff_prefix]
  exact List.prefix_append _ _

/-- **C7** (confirmed).  `persistEvents` appends the failed batch's
events to the session-keyed record and truncates the combination to its
most recent 100 events, dropping the oldest first; the stored record
never holds more than 100 events. -/
theorem c7_persist_cap (store : Storage) (sid : String) (events : List Event) :
    ∀ stored, getItem (persistEvents store sid events) (eventsKey sid) = some stored →
      stored = (((getItem store (eventsKey sid)).getD []) ++ events).drop
          ((((getItem store (eventsKey sid)).getD []) ++ events).length - 100)
        ∧ stored.length ≤ 100 := by
  intro stored hst
  have hset := getItem_setItem store (eventsKey sid)
    ((((getItem store (eventsKey sid)).getD []) ++ events).drop
      ((((getItem store (eventsKey sid)).getD []) ++ events).length - 100))
  rw [show persistEvents store sid events = setItem store (eventsKey sid)
      ((((getItem store (eventsKey sid)).getD []) ++ events).drop
        ((((getItem store (eventsKey sid)).getD []) ++ events).length - 100)) from rfl] at hst
  rw [hset] at hst
  obtain rfl : stored = _ := (Option.some_inj.mp hst).symm
  refine ⟨rfl, ?_⟩
  rw [List.length_drop]
  omega

/-- Witness for C7: persisting the batch `[5, 6]` into an empty store
yields a stored record equal to the capped combination, of size ≤ 100. -/
theorem c7_persist_cap_witness :
    ([5, 6] : List Event) = (((getItem ([] : Storage) (eventsKey "s")).getD []) ++ [5, 6]).drop
        ((((getItem ([] : Storage) (eventsKey "s")).getD []) ++ [5, 6]).length - 100)
    ∧ ([5, 6] : List Event).length ≤ 100 :=
  c7_persist_cap [] "s" [5, 6] [5, 6] (by decide)

theorem sendPersistedEvents_enabled (store : Storage) (sendOk : String → Bool) :
    sendPersistedEvents true store sendOk =
      store.filter fun kv => !(hasEventsKeyMark kv.1 && !kv.2.isEmpty && sendOk kv.1) := by
  unfold sendPersistedEvents
  rw [if_neg (by simp)]

/-- **C6** (confirmed).  A batch persisted after exhausting retries and
successfully redelivered during the startup drain is removed from the
store (and a second drain is a no-op, so removal happens exactly once);
a record whose redelivery fails is left in place unchanged; and the drain
covers every record whose key carries the `augur_events_` prefix,
regardless of which session produced it. -/
theorem c6_drain_round_trip (store : Storage) (sendOk : String → Bool) (sid : String)
    (events : List Event) :
    (events ≠ [] → sendOk (eventsKey sid) = true →
      getItem (sendPersistedEvents true (persistEvents store sid events) sendOk)
        (eventsKey sid) = none)
    ∧ (∀ kv, kv ∈ store → sendOk kv.1 = false → kv ∈ sendPersistedEvents true store sendOk)
    ∧ (∀ kv, kv ∈ store → hasEventsKeyMark kv.1 = true → kv.2 ≠ [] → sendOk kv.1 = true →
        kv ∉ sendPersistedEvents true store sendOk)
    ∧ sendPersistedEvents true (sendPersistedEvents true store sendOk) sendOk =
        sendPersistedEvents true store sendOk := by
  refine ⟨?_, ?_, ?_, ?_⟩
  · intro hne hok
    rw [sendPersistedEvents_enabled]
    apply getItem_filter_none
    intro kv hmem hkey
    have hkv := setItem_entries store (eventsKey sid)
      ((((getItem store (eventsKey sid)).getD []) ++ events).drop
        ((((getItem store (eventsKey sid)).getD []) ++ events).length - 100)) kv hmem hkey
    rw [hkv]
    have hcomb : 0 < (((getItem store (eventsKey sid)).getD []) ++ events).length := by
      rw [List.length_append]
      have := List.length_pos.mpr hne
      omega
    have hlim : (((getItem store (eventsKey sid)).getD []) ++ events).drop
        ((((getItem store (eventsKey sid)).getD []) ++ events).length - 100) ≠ [] := by
      apply List.length_pos.mp
      rw [List.length_drop]
      omega
    obtain ⟨x, xs, hL⟩ := List.exists_cons_of_ne_nil hlim
    rw [hL]
    simp [hasEventsKeyMark_eventsKey, hok]
  · intro kv hmem hok
    rw [sendPersistedEvents_enabled]
    exact List.mem_filter.mpr ⟨hmem, by simp [hok]⟩
  · intro kv hmem hmark hne hok hcontra
    rw [sendPersistedEvents_enabled] at hcontra
    have := (List.mem_filter.mp hcontra).2
    simp [hmark, hok, hne] at this
  · rw [sendPersistedEvents_enabled, sendPersistedEvents_enabled]
    rw [List.filter_filter]
    simp [Bool.and_self]

/-- Witness for C6: batch `[7]` persisted under session `"s1"` and
successfully redelivered is gone after the drain; a record `("augur_events_s2", [8])`
from another session whose redelivery fails stays; a nonempty record from
yet another session with a successful redelivery is removed; the second
drain is a no-op. -/
theorem c6_drain_round_trip_witness :
    getItem (sendPersistedEvents true (persistEvents [] "s1" [7]) (fun _ => true))
      (eventsKey "s1") = none
    ∧ (eventsKey "s2", [8]) ∈
        sendPersistedEvents true [(eventsKey "s2", [8])] (fun _ => false)
    ∧ (eventsKey "s3", [9]) ∉
        sendPersistedEvents true [(eventsKey "s3", [9])] (fun _ => true)
    ∧ sendPersistedEvents true
        (sendPersistedEvents true [(eventsKey "s2", [8])] (fun _ => false)) (fun _ => false) =
        sendPersistedEvents true [(eventsKey "s2", [8])] (fun _ => false) :=
  ⟨(c6_drain_round_trip [] (fun _ => true) "s1" [7]).1 (by decide) rfl,
   (c6_drain_round_trip [(eventsKey "s2", [8])] (fun _ => false) "s2" []).2.1
     (eventsKey "s2", [8]) (List.mem_singleton.mpr rfl) rfl,
   (c6_drain_round_trip [(eventsKey "s3", [9])] (fun _ => true) "s3" []).2.2.1
     (eventsKey "s3", [9]) (List.mem_singleton.mpr rfl)
     (hasEventsKeyMark_eventsKey "s3") (by decide) rfl,
   (c6_drain_round_trip [(eventsKey "s2", [8])] (fun _ => false) "s2" []).2.2.2⟩

/-! ### Error containment of the flush path -/

/-- The whole flush-and-deliver path of `flushQueue`, including the
asynchronous continuation of `sendBatch`: the `.then` handler resets
`isSending`; the `.catch` handler swallows the rejection, resets
`isSending` and persists the failed snapshot when persistence is
enabled.  The result is `Except`-valued so that "the send-failure error
is not re-raised" is a provable property: an uncaught delivery error
would surface as `.error`. -/
def flushPipeline (enableLocalStorage : Bool) (sessionId : String) (env : SendEnv)
    (maxRetries : Nat) (s : SdkState) (store : Storage) :
    Except String (SdkState × Storage) :=
  if s.queue.length = 0 ∨ s.isSending = true then .ok (s, store)
  else
    let batch := s.queue
    let s1 : SdkState :=
      { queue := [], sent := s.sent ++ [batch], isSending := true, timer := none }
    if (sendBatch env maxRetries).ok then
      .ok ({ s1 with isSending := false }, store)
    else
      .ok ({ s1 with isSending := false },
        if enableLocalStorage then persistEvents store sessionId batch else store)

/-- **C4** (confirmed).  The flush path never re-raises a delivery
failure (it always returns `.ok`, for every environment, retry budget and
state — this is what "no tracking method or `flushQueue` ever throws for
a delivery-related cause" amounts to, since the tracking methods only
enqueue and invoke this path); and when every attempt fails and
persistence is enabled, the failed batch is handed to the offline
persistence store. -/
theorem c4_failure_persist_no_rethrow (els : Bool) (sid : String) (env : SendEnv)
    (mr : Nat) (s : SdkState) (store : Storage) :
    (∃ r, flushPipeline els sid env mr s store = .ok r)
    ∧ (¬(s.queue.length = 0 ∨ s.isSending = true) → (sendBatch env mr).ok = false →
        els = true →
        flushPipeline els sid env mr s store =
          .ok ({ queue := [], sent := s.sent ++ [s.queue], isSending := false, timer := none },
            persistEvents store sid s.queue)) := by
  constructor
  · unfold flushPipeline
    split
    · exact ⟨_, rfl⟩
    · split
      · exact ⟨_, rfl⟩
      · exact ⟨_, rfl⟩
  · intro hrun hfail hels
    unfold flushPipeline
    rw [if_neg hrun, if_neg (by simp [hfail]), if_pos hels]

/-- Witness for C4: a one-event queue, the all-failing environment with
`maxRetries = 0`, persistence enabled — the pipeline returns `.ok` with
the batch persisted. -/
theorem c4_failure_persist_no_rethrow_witness :
    flushPipeline true "s" envAllFail 0
        { queue := [1], sent := [], isSending := false, timer := none } [] =
      .ok ({ queue := [], sent := [] ++ [[1]], isSending := false, timer := none },
        persistEvents [] "s" [1]) :=
  (c4_failure_persist_no_rethrow true "s" envAllFail 0
      { queue := [1], sent := [], isSending := false, timer := none } []).2
    (by decide) (by decide) rfl

/-! ### Session manager -/

/-- Outcome of reading `augur_session` from storage inside the
`try`-block: the read (or the `JSON.parse` of what it returned) threw,
returned `null`, or yielded a `{sessionId, timestamp}` record. -/
inductive ReadResult where
  | errRead
  | absent
  | record (sid : String) (ts : Int)
  deriving Repr, DecidableEq

/-- Result of `getOrCreateSession()`: the persisted id was reused (after
`updateSessionTimestamp(sessionId)` refreshed its timestamp), or a fresh
id was generated and persisted via `updateSessionTimestamp`, or a fresh
id was generated without touching storage. -/
inductive SessionOutcome where
  | reused (sid : String)
  | freshPersisted (sid : String)
  | freshUnpersisted (sid : String)
  deriving Repr, DecidableEq

/-- `getOrCreateSession()`.  `storageAvailable` models
`typeof window !== "undefined" && window.localStorage`; `stored` the
outcome of the guarded read; `now` is `Date.now()`; `freshId` the value
`generateSessionId()` would produce.  Timestamps are integers so that a
future-dated record (negative elapsed time) behaves as in the source. -/
def getOrCreateSession (enableLocalStorage storageAvailable : Bool) (stored : ReadResult)
    (now sessionTimeout : Int) (freshId : String) : SessionOutcome :=
  if ¬(enableLocalStorage = true ∧ storageAvailable = true) then
    .freshUnpersisted freshId
  else
    match stored with
    | .errRead => .freshUnpersisted freshId
    | .absent => .freshPersisted freshId
    | .record sid ts =>
      if now - ts < sessionTimeout then .reused sid
      else .freshPersisted freshId

/-- **C5** (confirmed).  `getOrCreateSession` reuses the persisted id
exactly when persistence is enabled, storage is available, the read
returned a record and `now - timestamp < sessionTimeout` (the `reused`
outcome carries the timestamp refresh performed by
`updateSessionTimestamp(sessionId)`); in every other case — persistence
disabled, storage unavailable, read/parse error, no record, expired
record — it returns the freshly generated id; being a total function of
its inputs with the error case an explicit value, it never throws. -/
theorem c5_session_reuse (els avail : Bool) (stored : ReadResult)
    (now timeout : Int) (freshId : String) :
    (∀ sid, getOrCreateSession els avail stored now timeout freshId = .reused sid ↔
        (els = true ∧ avail = true ∧ ∃ ts, stored = .record sid ts ∧ now - ts < timeout))
    ∧ ((els = false ∨ avail = false ∨ stored = .errRead) →
        getOrCreateSession els avail stored now timeout freshId = .freshUnpersisted freshId)
    ∧ (els = true → avail = true → stored = .absent →
        getOrCreateSession els avail stored now timeout freshId = .freshPersisted freshId)
    ∧ (∀ sid ts, els = true → avail = true → stored = .record sid ts →
        timeout ≤ now - ts →
        getOrCreateSession els avail stored now timeout freshId = .freshPersisted freshId) := by
  refine ⟨?_, ?_, ?_, ?_⟩
  · intro sid
    constructor
    · intro h
      unfold getOrCreateSession at h
      split at h
      · cases h
      · rename_i hguard
        rw [not_not] at hguard
        refine ⟨hguard.1, hguard.2, ?_⟩
        cases stored with
        | errRead => cases h
        | absent => cases h
        | record sid' ts =>
          change (if now - ts < timeout then SessionOutcome.reused sid'
            else SessionOutcome.freshPersisted freshId) = SessionOutcome.reused sid at h
          split at h
          · rename_i hv
            injection h with h1
            subst h1
            exact ⟨ts, rfl, hv⟩
          · cases h
    · rintro ⟨hels, havail, ts, hst, hv⟩
      subst hst
      unfold getOrCreateSession
      rw [if_neg (by simp [hels, havail])]
      show (if now - ts < timeout then SessionOutcome.reused sid
        else SessionOutcome.freshPersisted freshId) = SessionOutcome.reused sid
      rw [if_pos hv]
  · intro h
    unfold getOrCreateSession
    rcases h with h | h | h
    · rw [if_pos (by simp [h])]
    · rw [if_pos (by simp [h])]
    · subst h
      split
      · rfl
      · rfl
  · intro hels havail hst
    subst hst
    unfold getOrCreateSession
    rw [if_neg (by simp [hels, havail])]
  · intro sid ts hels havail hst hv
    subst hst
    unfold getOrCreateSession
    rw [if_neg (by simp [hels, havail])]
    show (if now - ts < timeout then SessionOutcome.reused sid
      else SessionOutcome.freshPersisted freshId) = SessionOutcome.freshPersisted freshId
    rw [if_neg (by omega)]

/-- Witness for C5: a valid record is reused; a disabled store, an
expired record and a read error each yield the fresh id. -/
theorem c5_session_reuse_witness :
    getOrCreateSession true true (.record "old" 0) 5 100 "f" = .reused "old"
    ∧ getOrCreateSession false true (.record "old" 0) 5 100 "f" = .freshUnpersisted "f"
    ∧ getOrCreateSession true true .errRead 5 100 "f" = .freshUnpersisted "f"
    ∧ getOrCreateSession true true (.record "old" 0) 200 100 "f" = .freshPersisted "f" :=
  ⟨((c5_session_reuse true true (.record "old" 0) 5 100 "f").1 "old").mpr
      ⟨rfl, rfl, 0, rfl, by decide⟩,
   (c5_session_reuse false true (.record "old" 0) 5 100 "f").2.1 (Or.inl rfl),
   (c5_session_reuse true true .errRead 5 100 "f").2.1 (Or.inr (Or.inr rfl)),
   (c5_session_reuse true true (.record "old" 0) 200 100 "f").2.2.2 "old" 0 rfl rfl rfl
     (by decide)⟩

end Augur
